import Mathlib

/-!
Verification of the Numbeo HTML-table extraction core of
`crawl_datasets.py` (repository `papstchaka/dopp_datasets`).

The embedding models exactly the API surface the script uses:

* `Node` mirrors a parsed-markup node as seen through BeautifulSoup's
  `.name` (`none` for a text node), `.text` (the flattened text content,
  carried as data since the script only ever reads it), and `.children`.
* `MarkupTable` carries the two regions the script walks:
  the children of `table.thead.tr` and the children of `table.tbody`.
* Python exceptions are modelled by `Except PyErr`; the script has no
  handlers, so every raised error propagates.
* `pd.to_numeric(column, errors='ignore')` is modelled as an
  all-or-nothing per-column numeric parse (`colNumeric` / `coerceCell`):
  if every value of the column parses, all are replaced by their numeric
  value, otherwise the whole column keeps its original text.  The numeric
  grammar modelled is optional sign, a nonempty run of decimal digits and
  an optional decimal fraction (locale-agnostic, as the script relies on).
* `numpy`'s stringification of the mixed `data_as_list` (an `int` rank in
  front of text cells) is modelled by rendering the rank with `natRepr`,
  the decimal rendering of a natural number.
-/

/-- A parsed markup node: `name = none` models a BeautifulSoup
`NavigableString` (pure text), `name = some tag` an element node.
`text` is the node's flattened text content as BeautifulSoup exposes it. -/
structure Node where
  name : Option String
  text : String
  children : List Node

/-- One HTML `table` element, exposing the two regions
`crawl_datasets.py` walks: the children of `thead.tr` (header cells and
interleaved whitespace text nodes) and the children of `tbody` (data rows
and interleaved whitespace text nodes).  Tables missing `thead.tr` or
`tbody` would raise `AttributeError` before any of the modelled code runs
and are outside this model, matching the spec's `MarkupTable` data type. -/
structure MarkupTable where
  theadTrChildren : List Node
  tbodyChildren : List Node

/-- A selectable year option of the `changePageForm` control, exposing the
display text and the machine `value` attribute the script reads (the spec's
data model: each option carries a machine value). -/
structure OptionTag where
  text : String
  value : String

/-- A fetched-and-parsed page, exposing exactly what the script queries:
the option list of the element with class `changePageForm` (`none` when
`html.find` returns `None`) and the list of all `table` elements found. -/
structure Html where
  changePageForm : Option (List OptionTag)
  tables : List MarkupTable

/-- The Python exceptions the modelled code can raise. -/
inductive PyErr where
  | attributeError
  | indexError
  | valueErrorShape
  | valueErrorConcat
  | valueErrorInt
deriving DecidableEq

/-- A cell of the final DataFrame: numeric after a successful per-column
coercion, otherwise the original text. -/
inductive Value where
  | num (q : Rat)
  | str (s : String)
deriving DecidableEq

/-- The pandas DataFrame as the script uses it: column labels, rows of
cell values, and the row index (pandas prints/serialises it; the script
manipulates it via `reset_index` and `concat`). -/
structure Dataset where
  columns : List String
  rows : List (List Value)
  index : List Nat
deriving DecidableEq

instance {ε α : Type} [DecidableEq ε] [DecidableEq α] : DecidableEq (Except ε α) :=
  fun x y =>
    match x, y with
    | .error a, .error b =>
      if h : a = b then isTrue (by rw [h]) else isFalse (by intro hc; cases hc; exact h rfl)
    | .error _, .ok _ => isFalse (by intro hc; cases hc)
    | .ok _, .error _ => isFalse (by intro hc; cases hc)
    | .ok a, .ok b =>
      if h : a = b then isTrue (by rw [h]) else isFalse (by intro hc; cases hc; exact h rfl)

/-- `con.name != None`: the script's test for an element node. -/
def isElem (n : Node) : Bool := n.name.isSome

/-- Decimal digits of `n`, most significant first, fuel-structured so that
it is kernel-reducible (`fuel > number of digits` suffices; callers pass
`n + 1`). -/
def natDigitsGo : Nat → Nat → List Char → List Char
  | 0, _, acc => acc
  | fuel + 1, n, acc =>
    let d := Char.ofNat (n % 10 + 48)
    if n < 10 then d :: acc else natDigitsGo fuel (n / 10) (d :: acc)

/-- Decimal rendering of a natural number, modelling Python's `str(i)`
(applied by `np.array` to the integer rank placed among text cells). -/
def natRepr (n : Nat) : String := String.mk (natDigitsGo (n + 1) n [])

/-- Value of a digit run prepended to accumulator `a`; `none` on the first
non-digit character. -/
def digitsVal : List Char → Nat → Option Nat
  | [], a => some a
  | c :: cs, a => if c.isDigit then digitsVal cs (a * 10 + (c.toNat - 48)) else none

/-- Parse a nonempty run of decimal digits. -/
def parseDigits (cs : List Char) : Option Nat :=
  if cs.isEmpty then none else digitsVal cs 0

/-- Parse an unsigned numeral: a nonempty integer part, optionally
followed by a decimal point and fractional digits; the value
`n.d₁…dₖ` is `(n·10ᵏ + d₁…dₖ) / 10ᵏ`. -/
def parseUnsigned (cs : List Char) : Option Rat :=
  let ip := cs.takeWhile (fun c => c ≠ '.')
  let rest := cs.dropWhile (fun c => c ≠ '.')
  match rest with
  | [] => (parseDigits ip).map (fun n => ((n : Nat) : Rat))
  | _ :: frac =>
    match parseDigits ip, digitsVal frac 0 with
    | some n, some f => some (mkRat (((n * 10 ^ frac.length + f : Nat) : Int)) ((10 : Nat) ^ frac.length))
    | _, _ => none

/-- The numeric grammar of `pd.to_numeric` as the script relies on it:
optional sign, integer digits, optional fraction (locale-agnostic). -/
def parseNum (s : String) : Option Rat :=
  match s.data with
  | [] => none
  | c :: cs =>
    if c = '-' then (parseUnsigned cs).map (fun q => -q)
    else if c = '+' then parseUnsigned cs
    else parseUnsigned (c :: cs)

/-- Python's `int(s)`: optional sign and a nonempty digit run, raising
`ValueError` otherwise. -/
def pyInt (s : String) : Except PyErr Int :=
  match s.data with
  | '-' :: cs =>
    match parseDigits cs with
    | some n => .ok (-(n : Int))
    | none => .error .valueErrorInt
  | '+' :: cs =>
    match parseDigits cs with
    | some n => .ok ((n : Int))
    | none => .error .valueErrorInt
  | cs =>
    match parseDigits cs with
    | some n => .ok ((n : Int))
    | none => .error .valueErrorInt

/-- Python's substring test `needle in hay`. -/
def subOf (needle : List Char) : List Char → Bool
  | [] => needle.isEmpty
  | c :: t => needle.isPrefixOf (c :: t) || subOf needle t

/-- String containment, modelling Python's `"Mid-Year" not in text` test. -/
def containsSub (needle hay : String) : Bool := subOf needle.data hay.data

/-- `get_all_links` (crawl_datasets.py lines 12-31): enumerate the options
of the `changePageForm` control, drop every option whose display text
contains `Mid-Year`, and build one link `link?title=value` per kept
option, in page order.  A missing control makes `.findAll` run on `None`
and raises `AttributeError`. -/
def get_all_links (link : String) (html : Html) : Except PyErr (List String) :=
  match html.changePageForm with
  | none => .error .attributeError
  | some opts =>
    let years := (opts.filter (fun o => ! containsSub ("Mid-Year") o.text)).map (fun o => o.value)
    .ok (years.map (fun y => link ++ ("?title=") ++ y))

/-- The header labels (crawl_datasets.py lines 41-46): the text of every
element child of `thead.tr`, in order, skipping text nodes. -/
def headerLabels (t : MarkupTable) : List String :=
  (t.theadTrChildren.filter isElem).map Node.text

/-- One body row (crawl_datasets.py lines 54-63): collect the text of the
element cells, overwrite index 0 with the 1-based rank `i`
(`data_as_list[0] = i` raises `IndexError` on an empty list), and require
the cell count to match the column count (`pd.DataFrame` of a `(1, L)`
array against `ncols` labels raises `ValueError` when `L ≠ ncols`). -/
def buildRow (ncols i : Nat) (rowNode : Node) : Except PyErr (List String) :=
  match (rowNode.children.filter isElem).map Node.text with
  | [] => .error .indexError
  | _ :: rest =>
    if rest.length + 1 = ncols then .ok (natRepr i :: rest) else .error .valueErrorShape

/-- The body loop of `read_table` (crawl_datasets.py lines 47-63): walk the
children of `tbody` in order, skip text nodes, and build one row per
element child; the rank counter `i` increments only on element rows. -/
def buildRawRowsGo (ncols : Nat) : Nat → List Node → Except PyErr (List (List String))
  | _, [] => .ok []
  | i, n :: ns =>
    if isElem n then
      match buildRow ncols (i + 1) n with
      | .error e => .error e
      | .ok r =>
        match buildRawRowsGo ncols (i + 1) ns with
        | .error e => .error e
        | .ok rs => .ok (r :: rs)
    else buildRawRowsGo ncols i ns

/-- The assembled raw (pre-coercion) rows of a table. -/
def rawRows (t : MarkupTable) : Except PyErr (List (List String)) :=
  buildRawRowsGo (headerLabels t).length 0 t.tbodyChildren

/-- Whether a whole column parses numerically (the success condition of
`pd.to_numeric(data[col], errors='ignore')`, column `j`). -/
def colNumeric (rws : List (List String)) (j : Nat) : Bool :=
  rws.all (fun r => (parseNum (r.getD j (""))).isSome)

/-- One cell after the coercion pass: numeric when its whole column
converted, otherwise the original text (a failed conversion is ignored,
never an error). -/
def coerceCell (numeric : Bool) (v : String) : Value :=
  if numeric then
    match parseNum v with
    | some q => .num q
    | none => .str v
  else .str v

/-- Coerce the cells of one row, `j` being the column offset. -/
def coerceRowGo (rws : List (List String)) : Nat → List String → List Value
  | _, [] => []
  | j, v :: vs => coerceCell (colNumeric rws j) v :: coerceRowGo rws (j + 1) vs

/-- Coerce one row against the whole table (crawl_datasets.py lines
66-68); the decision for column `j` looks at every row. -/
def coerceRow (rws : List (List String)) (r : List String) : List Value :=
  coerceRowGo rws 0 r

/-- The coercion pass over all rows.  The script iterates `for col in
columns`; the spec's data model assumes column labels unique within one
table, so iterating by position is the same loop. -/
def coerceRows (rws : List (List String)) : List (List Value) :=
  rws.map (coerceRow rws)

/-- `read_table` (crawl_datasets.py lines 33-69): extract header labels,
build one row per element body row, `pd.concat` them (raising
`ValueError` on an empty list), reset the index to `0..n-1`, and run the
per-column numeric coercion. -/
def read_table (t : MarkupTable) : Except PyErr Dataset :=
  match rawRows t with
  | .error e => .error e
  | .ok [] => .error .valueErrorConcat
  | .ok (r :: rs) =>
    .ok ⟨headerLabels t, coerceRows (r :: rs), List.range (r :: rs).length⟩

/-- `get_data` (crawl_datasets.py lines 71-89): fetch and parse `link`,
take the second `table` element (`tables[1]` raises `IndexError` when
fewer than two exist) and read it.  `fetch` abstracts
`requests.get` + `BeautifulSoup`. -/
def get_data (fetch : String → Html) (link : String) : Except PyErr Dataset :=
  match (fetch link).tables with
  | _ :: t1 :: _ => read_table t1
  | _ => .error .indexError

/-- Python's `s.split(sep)` for a one-character separator, char-wise
(the script only ever splits on `=` and `-`); the result is never empty. -/
def splitCh (sep : Char) : List Char → List (List Char)
  | [] => [[]]
  | c :: cs =>
    if c = sep then [] :: splitCh sep cs
    else
      match splitCh sep cs with
      | [] => [[c]]
      | g :: gs => (c :: g) :: gs

/-- The year encoded in a per-year link (crawl_datasets.py line 160):
`int(l.split("=")[-1].split("-")[0])` — the trailing segment after the
last `=`, truncated at the first `-`. -/
def yearOf (l : String) : Except PyErr Int :=
  pyInt (String.mk (((splitCh ('-') ((splitCh ('=') l.data).getLastD [])).headD [])))

/-- `raw_data["Year"] = y` (crawl_datasets.py line 160): broadcast the
scalar year over a new `Year` column (or overwrite an existing one);
the row index is untouched. -/
def addYear (d : Dataset) (y : Int) : Dataset :=
  if "Year" ∈ d.columns then
    { d with rows := d.rows.map (fun r => r.set (d.columns.indexOf ("Year")) (.num ((y : Rat)))) }
  else
    { columns := d.columns ++ [("Year")]
      rows := d.rows.map (fun r => r ++ [Value.num ((y : Rat))])
      index := d.index }

/-- One iteration of the year loop (crawl_datasets.py lines 156-161):
`raw_data = get_data(link)` — the base link, not the per-year link `l` —
then parse the year out of `l` and attach it. -/
def perYearDataset (fetch : String → Html) (link l : String) : Except PyErr Dataset :=
  match get_data fetch link with
  | .error e => .error e
  | .ok raw =>
    match yearOf l with
    | .error e => .error e
    | .ok y => .ok (addYear raw y)

/-- Effectful `map` over a list, modelling the Python `for` loop that
appends one result per element and aborts on the first raised error. -/
def mapExcept {α β ε : Type} (f : α → Except ε β) : List α → Except ε (List β)
  | [] => .ok []
  | a :: as =>
    match f a with
    | .error e => .error e
    | .ok b =>
      match mapExcept f as with
      | .error e => .error e
      | .ok bs => .ok (b :: bs)

/-- `pd.concat(data)` as the script uses it (crawl_datasets.py line 163,
every frame carrying the same columns since all are built from the same
page): rows and index values are concatenated in order, the index is NOT
renumbered; an empty list raises `ValueError`. -/
def concatDatasets : List Dataset → Except PyErr Dataset
  | [] => .error .valueErrorConcat
  | d :: ds =>
    .ok ⟨d.columns, ((d :: ds).map Dataset.rows).flatten, ((d :: ds).map Dataset.index).flatten⟩

/-- The per-year datasets of the numbeo branch (crawl_datasets.py lines
149-161): discover the year links on the base page, then run one
`perYearDataset` per link, in order. -/
def numbeoDatasets (fetch : String → Html) (link : String) : Except PyErr (List Dataset) :=
  match get_all_links link (fetch link) with
  | .error e => .error e
  | .ok yls => mapExcept (perYearDataset fetch link) yls

/-- The combined dataset the numbeo branch writes out (crawl_datasets.py
lines 162-163): the concatenation of all per-year datasets. -/
def numbeoWhole (fetch : String → Html) (link : String) : Except PyErr Dataset :=
  match numbeoDatasets fetch link with
  | .error e => .error e
  | .ok ds => concatDatasets ds

/-- Element-cell count of the header row. -/
def headerCount (t : MarkupTable) : Nat := (t.theadTrChildren.filter isElem).length

/-- A chrome/navigation table, the first table of a numbeo page; the
script never reads it. -/
def exT1 : MarkupTable := ⟨[], []⟩

/-- A concrete data table: header `Rank / City / Index` with interleaved
whitespace text nodes, and two body rows whose first cells carry stale
rank text (`9`, `1`). -/
def exT2 : MarkupTable :=
  ⟨[⟨none, ("\n"), []⟩, ⟨some ("th"), ("Rank"), []⟩, ⟨some ("th"), ("City"), []⟩,
    ⟨some ("th"), ("Index"), []⟩],
   [⟨none, ("\n"), []⟩,
    ⟨some ("tr"), (""),
      [⟨none, (" "), []⟩, ⟨some ("td"), ("9"), []⟩, ⟨some ("td"), ("Zurich"), []⟩,
       ⟨some ("td"), ("120.5"), []⟩]⟩,
    ⟨some ("tr"), (""),
      [⟨some ("td"), ("1"), []⟩, ⟨some ("td"), ("Oslo"), []⟩, ⟨some ("td"), ("110.0"), []⟩]⟩]⟩

/-- A concrete numbeo page: a year selector offering 2019, a 2019
mid-year variant and 2020, plus the chrome table and the data table. -/
def exHtml : Html :=
  ⟨some [⟨("2019"), ("2019")⟩, ⟨("2019 Mid-Year"), ("2019-mid")⟩, ⟨("2020"), ("2020")⟩],
   [exT1, exT2]⟩

/-- A network that serves `exHtml` at every URL. -/
def exFetch : String → Html := fun _ => exHtml

/-- The dataset `read_table` extracts from `exT2`: ranks rewritten to 1
and 2 and numeric, `City` textual, `Index` numeric. -/
def exD : Dataset :=
  ⟨[("Rank"), ("City"), ("Index")],
   [[.num 1, .str ("Zurich"), .num (mkRat 241 2)], [.num 2, .str ("Oslo"), .num 110]],
   [0, 1]⟩

/-- The 2019 per-year dataset: `exD` with the year column attached. -/
def exD2019 : Dataset :=
  ⟨[("Rank"), ("City"), ("Index"), ("Year")],
   [[.num 1, .str ("Zurich"), .num (mkRat 241 2), .num 2019],
    [.num 2, .str ("Oslo"), .num 110, .num 2019]],
   [0, 1]⟩

/-- The 2020 per-year dataset: `exD` with the year column attached. -/
def exD2020 : Dataset :=
  ⟨[("Rank"), ("City"), ("Index"), ("Year")],
   [[.num 1, .str ("Zurich"), .num (mkRat 241 2), .num 2020],
    [.num 2, .str ("Oslo"), .num 110, .num 2020]],
   [0, 1]⟩

/-- The per-year datasets the numbeo branch builds from `exFetch`. -/
def exDs : List Dataset := [exD2019, exD2020]

/-- The combined dataset: rows of both years, and the per-year indexes
concatenated as `pd.concat` leaves them. -/
def exWhole : Dataset :=
  ⟨[("Rank"), ("City"), ("Index"), ("Year")],
   [[.num 1, .str ("Zurich"), .num (mkRat 241 2), .num 2019],
    [.num 2, .str ("Oslo"), .num 110, .num 2019],
    [.num 1, .str ("Zurich"), .num (mkRat 241 2), .num 2020],
    [.num 2, .str ("Oslo"), .num 110, .num 2020]],
   [0, 1, 0, 1]⟩

/-- A network serving `exHtml` at the base link only and an empty page
everywhere else (in particular at every constructed per-year URL). -/
def exFetchB : String → Html := fun u => if u = ("b") then exHtml else ⟨none, []⟩

/-- A table whose body region holds only a text node and no element row. -/
def exT10 : MarkupTable := ⟨[⟨some ("th"), ("A"), []⟩], [⟨none, ("\n"), []⟩]⟩

/-- A page offering one full-year and one mid-year option (the spec's
worked example). -/
def ex4Html : Html := ⟨some [⟨("2019"), ("2019")⟩, ⟨("2019 Mid-Year"), ("2019-mid")⟩], []⟩

/-- The raw (pre-coercion) rows `read_table` assembles from `exT2`. -/
def exRaw : List (List String) :=
  [[("1"), ("Zurich"), ("120.5")], [("2"), ("Oslo"), ("110.0")]]

/-- Fold of the decimal digits of `n` onto an accumulator `a`, fuel-indexed
to mirror `natDigitsGo`; proof-layer companion of `digitsVal`. -/
def shift10Go : Nat → Nat → Nat → Nat
  | 0, a, n => a * 10 + n % 10
  | fuel + 1, a, n => if n < 10 then a * 10 + n else shift10Go fuel a (n / 10) * 10 + n % 10

theorem digitChar_isDigit (m : Nat) (h : m < 10) : (Char.ofNat (m + 48)).isDigit = true := by
  interval_cases m <;> decide

theorem digitChar_toNat (m : Nat) (h : m < 10) : (Char.ofNat (m + 48)).toNat - 48 = m := by
  interval_cases m <;> decide

theorem isDigit_ne_minus {c : Char} (h : c.isDigit = true) : c ≠ '-' := by
  intro hc; cases hc; exact absurd h (by decide)

theorem isDigit_ne_plus {c : Char} (h : c.isDigit = true) : c ≠ '+' := by
  intro hc; cases hc; exact absurd h (by decide)

theorem isDigit_ne_dot {c : Char} (h : c.isDigit = true) : c ≠ '.' := by
  intro hc; cases hc; exact absurd h (by decide)

theorem digitsVal_natDigitsGo :
    ∀ (fuel n : Nat) (acc : List Char) (a : Nat), n < fuel →
      digitsVal (natDigitsGo fuel n acc) a = digitsVal acc (shift10Go fuel a n) := by
  intro fuel
  induction fuel with
  | zero => intro n acc a h; exact absurd h (Nat.not_lt_zero n)
  | succ f ih =>
    intro n acc a h
    have hd1 := digitChar_isDigit (n % 10) (Nat.mod_lt n (by norm_num))
    have hd2 := digitChar_toNat (n % 10) (Nat.mod_lt n (by norm_num))
    by_cases h10 : n < 10
    · rw [Nat.mod_eq_of_lt h10] at hd1 hd2
      simp [natDigitsGo, shift10Go, h10, digitsVal, Nat.mod_eq_of_lt h10, hd1, hd2]
    · have hlt : n / 10 < f := by
        have := Nat.div_lt_self (show 0 < n by omega) (show 1 < 10 by norm_num)
        omega
      simp only [natDigitsGo, shift10Go, if_neg h10]
      rw [ih (n / 10) _ a hlt]
      simp [digitsVal, hd1, hd2]

theorem shift10Go_zero : ∀ (fuel n : Nat), n < fuel → shift10Go fuel 0 n = n := by
  intro fuel
  induction fuel with
  | zero => intro n h; exact absurd h (Nat.not_lt_zero n)
  | succ f ih =>
    intro n h
    by_cases h10 : n < 10
    · simp [shift10Go, h10]
    · have hlt : n / 10 < f := by
        have := Nat.div_lt_self (show 0 < n by omega) (show 1 < 10 by norm_num)
        omega
      simp only [shift10Go, if_neg h10, ih (n / 10) hlt]
      omega

theorem natDigitsGo_ne_nil :
    ∀ (fuel n : Nat) (acc : List Char), 0 < fuel ∨ acc ≠ [] → natDigitsGo fuel n acc ≠ [] := by
  intro fuel
  induction fuel with
  | zero =>
    intro n acc h
    simp only [natDigitsGo]
    rcases h with h | h
    · exact absurd h (by omega)
    · exact h
  | succ f ih =>
    intro n acc h
    by_cases h10 : n < 10
    · simp [natDigitsGo, h10]
    · simp only [natDigitsGo, if_neg h10]
      exact ih (n / 10) _ (Or.inr (by simp))

theorem mem_natDigitsGo :
    ∀ (fuel n : Nat) (acc : List Char) (c : Char),
      c ∈ natDigitsGo fuel n acc → c.isDigit = true ∨ c ∈ acc := by
  intro fuel
  induction fuel with
  | zero => intro n acc c h; right; simpa [natDigitsGo] using h
  | succ f ih =>
    intro n acc c h
    have hd1 := digitChar_isDigit (n % 10) (Nat.mod_lt n (by norm_num))
    by_cases h10 : n < 10
    · simp only [natDigitsGo, if_pos h10] at h
      rcases List.mem_cons.mp h with h | h
      · left; rw [h]; exact hd1
      · right; exact h
    · simp only [natDigitsGo, if_neg h10] at h
      rcases ih (n / 10) _ c h with h | h
      · left; exact h
      · rcases List.mem_cons.mp h with h | h
        · left; rw [h]; exact hd1
        · right; exact h

theorem natRepr_digits (n : Nat) :
    ∃ c cs, (natRepr n).data = c :: cs ∧ (∀ x ∈ (natRepr n).data, x.isDigit = true) ∧
      digitsVal (natRepr n).data 0 = some n := by
  have hdata : (natRepr n).data = natDigitsGo (n + 1) n [] := rfl
  have hne := natDigitsGo_ne_nil (n + 1) n [] (Or.inl (by omega))
  cases hl : natDigitsGo (n + 1) n [] with
  | nil => exact absurd hl hne
  | cons c cs =>
    refine ⟨c, cs, by rw [hdata, hl], ?_, ?_⟩
    · intro x hx
      rw [hdata] at hx
      rcases mem_natDigitsGo (n + 1) n [] x hx with h | h
      · exact h
      · exact absurd h (List.not_mem_nil x)
    · rw [hdata, digitsVal_natDigitsGo (n + 1) n [] 0 (by omega)]
      simp [digitsVal, shift10Go_zero (n + 1) n (by omega)]

theorem takeWhile_all {α : Type} (p : α → Bool) :
    ∀ l : List α, (∀ c ∈ l, p c = true) → l.takeWhile p = l := by
  intro l
  induction l with
  | nil => intro _; rfl
  | cons c cs ih =>
    intro h
    simp [List.takeWhile_cons, h c (List.mem_cons_self c cs),
      ih (fun x hx => h x (List.mem_cons_of_mem c hx))]

theorem dropWhile_all {α : Type} (p : α → Bool) :
    ∀ l : List α, (∀ c ∈ l, p c = true) → l.dropWhile p = [] := by
  intro l
  induction l with
  | nil => intro _; rfl
  | cons c cs ih =>
    intro h
    simp [List.dropWhile_cons, h c (List.mem_cons_self c cs),
      ih (fun x hx => h x (List.mem_cons_of_mem c hx))]

theorem parseNum_natRepr (n : Nat) : parseNum (natRepr n) = some ((n : Rat)) := by
  obtain ⟨c, cs, hdata, hdig, hval⟩ := natRepr_digits n
  have hc : c.isDigit = true := hdig c (by rw [hdata]; exact List.mem_cons_self c cs)
  have hall : ∀ x ∈ c :: cs, (decide (x ≠ '.')) = true := by
    intro x hx
    exact decide_eq_true (isDigit_ne_dot (hdig x (by rw [hdata]; exact hx)))
  unfold parseNum
  rw [hdata]
  change (if c = '-' then Option.map (fun q => -q) (parseUnsigned cs)
    else if c = '+' then parseUnsigned cs else parseUnsigned (c :: cs)) = some ((n : Rat))
  rw [if_neg (isDigit_ne_minus hc), if_neg (isDigit_ne_plus hc)]
  unfold parseUnsigned
  rw [takeWhile_all _ (c :: cs) hall, dropWhile_all _ (c :: cs) hall]
  rw [hdata] at hval
  simp [parseDigits, hval]

theorem buildRow_ok {ncols i : Nat} {nd : Node} {r : List String}
    (h : buildRow ncols i nd = .ok r) :
    r.length = ncols ∧ (∃ tl, r = natRepr i :: tl) ∧
      (nd.children.filter isElem).length = ncols := by
  unfold buildRow at h
  cases hc : (nd.children.filter isElem).map Node.text with
  | nil => rw [hc] at h; exact absurd h (by simp)
  | cons c rest =>
    rw [hc] at h
    have h2 : (if rest.length + 1 = ncols then Except.ok (natRepr i :: rest)
        else Except.error PyErr.valueErrorShape) = Except.ok r := h
    by_cases hl : rest.length + 1 = ncols
    · rw [if_pos hl] at h2
      injection h2 with h1
      have hlen : (nd.children.filter isElem).length = rest.length + 1 := by
        have := congrArg List.length hc
        simpa using this
      refine ⟨?_, ⟨rest, h1.symm⟩, by omega⟩
      rw [← h1]
      simpa using hl
    · rw [if_neg hl] at h2
      exact absurd h2 (by simp)

theorem buildGo_ok {ncols : Nat} :
    ∀ (ns : List Node) (i : Nat) (rws : List (List String)),
      buildRawRowsGo ncols i ns = .ok rws →
      rws.length = (ns.filter isElem).length ∧
      (∀ r ∈ rws, r.length = ncols ∧ ∃ m tl, r = natRepr m :: tl) ∧
      (∀ nd ∈ ns.filter isElem, (nd.children.filter isElem).length = ncols) ∧
      (∀ k, k < rws.length → ∃ tl, rws.getD k [] = natRepr (i + k + 1) :: tl) := by
  intro ns
  induction ns with
  | nil =>
    intro i rws h
    simp only [buildRawRowsGo] at h
    injection h with h1
    subst h1
    simp
  | cons nd ns ih =>
    intro i rws h
    by_cases he : isElem nd
    · simp only [buildRawRowsGo, if_pos he] at h
      cases hb : buildRow ncols (i + 1) nd with
      | error e => rw [hb] at h; exact absurd h (by simp)
      | ok r =>
        rw [hb] at h
        cases hg : buildRawRowsGo ncols (i + 1) ns with
        | error e => rw [hg] at h; exact absurd h (by simp)
        | ok rs =>
          rw [hg] at h
          injection h with h1
          subst h1
          obtain ⟨hrl, ⟨tl, hrtl⟩, hcells⟩ := buildRow_ok hb
          obtain ⟨ih1, ih2, ih3, ih4⟩ := ih (i + 1) rs hg
          refine ⟨?_, ?_, ?_, ?_⟩
          · simp [List.filter_cons, he, ih1]
          · intro x hx
            rcases List.mem_cons.mp hx with hx | hx
            · subst hx; exact ⟨hrl, i + 1, tl, hrtl⟩
            · exact ih2 x hx
          · intro x hx
            rw [List.filter_cons, if_pos he] at hx
            rcases List.mem_cons.mp hx with hx | hx
            · subst hx; exact hcells
            · exact ih3 x hx
          · intro k hk
            cases k with
            | zero => exact ⟨tl, by simpa using hrtl⟩
            | succ k2 =>
              obtain ⟨tl2, htl2⟩ := ih4 k2 (by simpa using hk)
              refine ⟨tl2, ?_⟩
              have harith : i + 1 + k2 + 1 = i + (k2 + 1) + 1 := by omega
              rw [← harith]
              simpa using htl2
    · simp only [buildRawRowsGo, if_neg he] at h
      obtain ⟨ih1, ih2, ih3, ih4⟩ := ih i rws h
      refine ⟨?_, ih2, ?_, ih4⟩
      · simp [List.filter_cons, he, ih1]
      · intro x hx
        apply ih3
        rw [List.filter_cons, if_neg he] at hx
        exact hx

theorem read_table_ok {t : MarkupTable} {d : Dataset} (h : read_table t = .ok d) :
    ∃ rws, rawRows t = .ok rws ∧ rws ≠ [] ∧
      d = ⟨headerLabels t, coerceRows rws, List.range rws.length⟩ := by
  unfold read_table at h
  cases hr : rawRows t with
  | error e => rw [hr] at h; exact absurd h (by simp)
  | ok rws =>
    rw [hr] at h
    cases rws with
    | nil => exact absurd h (by simp)
    | cons r rs =>
      injection h with h1
      exact ⟨r :: rs, rfl, by simp, h1.symm⟩

theorem coerceRowGo_length (rws : List (List String)) :
    ∀ (r : List String) (j : Nat), (coerceRowGo rws j r).length = r.length := by
  intro r
  induction r with
  | nil => intro j; rfl
  | cons v vs ih => intro j; simp [coerceRowGo, ih (j + 1)]

theorem coerceRowGo_getD (rws : List (List String)) :
    ∀ (r : List String) (j k : Nat), k < r.length →
      (coerceRowGo rws j r).getD k (Value.str ("")) =
        coerceCell (colNumeric rws (j + k)) (r.getD k ("")) := by
  intro r
  induction r with
  | nil => intro j k h; exact absurd h (by simp)
  | cons v vs ih =>
    intro j k h
    cases k with
    | zero => simp [coerceRowGo]
    | succ k2 =>
      have harith : j + 1 + k2 = j + (k2 + 1) := by omega
      simp only [coerceRowGo, List.getD_cons_succ]
      rw [ih (j + 1) k2 (by simpa using h), harith]

theorem map_getD {α β : Type} (f : α → β) (da : α) (db : β) :
    ∀ (l : List α) (i : Nat), i < l.length → (l.map f).getD i db = f (l.getD i da) := by
  intro l
  induction l with
  | nil => intro i h; exact absurd h (by simp)
  | cons a as ih =>
    intro i h
    cases i with
    | zero => simp
    | succ i2 => simpa using ih i2 (by simpa using h)

theorem mapExcept_ok_length {α β ε : Type} (f : α → Except ε β) :
    ∀ (xs : List α) (ys : List β), mapExcept f xs = .ok ys → ys.length = xs.length := by
  intro xs
  induction xs with
  | nil =>
    intro ys h
    simp only [mapExcept] at h
    injection h with h1
    rw [← h1]
    rfl
  | cons x xs ih =>
    intro ys h
    simp only [mapExcept] at h
    cases hf : f x with
    | error e => rw [hf] at h; exact absurd h (by simp)
    | ok b =>
      rw [hf] at h
      cases hm : mapExcept f xs with
      | error e => rw [hm] at h; exact absurd h (by simp)
      | ok bs =>
        rw [hm] at h
        injection h with h1
        rw [← h1]
        simp [ih bs hm]

theorem mapExcept_ok_mem {α β ε : Type} (f : α → Except ε β) :
    ∀ (xs : List α) (ys : List β), mapExcept f xs = .ok ys →
      ∀ y ∈ ys, ∃ x ∈ xs, f x = .ok y := by
  intro xs
  induction xs with
  | nil =>
    intro ys h y hy
    simp only [mapExcept] at h
    injection h with h1
    rw [← h1] at hy
    exact absurd hy (by simp)
  | cons x xs ih =>
    intro ys h y hy
    simp only [mapExcept] at h
    cases hf : f x with
    | error e => rw [hf] at h; exact absurd h (by simp)
    | ok b =>
      rw [hf] at h
      cases hm : mapExcept f xs with
      | error e => rw [hm] at h; exact absurd h (by simp)
      | ok bs =>
        rw [hm] at h
        injection h with h1
        rw [← h1] at hy
        rcases List.mem_cons.mp hy with hy | hy
        · subst hy; exact ⟨x, List.mem_cons_self x xs, hf⟩
        · obtain ⟨x2, hx2, hfx2⟩ := ih bs hm y hy
          exact ⟨x2, List.mem_cons_of_mem x hx2, hfx2⟩

theorem get_data_ok {fetch : String → Html} {link : String} {raw : Dataset}
    (h : get_data fetch link = .ok raw) : ∃ t1, read_table t1 = .ok raw := by
  unfold get_data at h
  cases hts : (fetch link).tables with
  | nil => rw [hts] at h; exact absurd h (by simp)
  | cons t0 rest =>
    cases rest with
    | nil => rw [hts] at h; exact absurd h (by simp)
    | cons t1 rest2 => rw [hts] at h; exact ⟨t1, h⟩

theorem perYearDataset_ok {fetch : String → Html} {link l : String} {d : Dataset}
    (h : perYearDataset fetch link l = .ok d) :
    ∃ raw y, get_data fetch link = .ok raw ∧ yearOf l = .ok y ∧ d = addYear raw y := by
  unfold perYearDataset at h
  cases hg : get_data fetch link with
  | error e => rw [hg] at h; exact absurd h (by simp)
  | ok raw =>
    rw [hg] at h
    cases hy : yearOf l with
    | error e => rw [hy] at h; exact absurd h (by simp)
    | ok y =>
      rw [hy] at h
      injection h with h1
      exact ⟨raw, y, rfl, rfl, h1.symm⟩

theorem addYear_index (d : Dataset) (y : Int) : (addYear d y).index = d.index := by
  unfold addYear
  split <;> rfl

theorem addYear_rowsLength (d : Dataset) (y : Int) :
    (addYear d y).rows.length = d.rows.length := by
  unfold addYear
  split <;> simp

theorem read_table_index {t : MarkupTable} {d : Dataset} (h : read_table t = .ok d) :
    d.index = List.range d.rows.length := by
  obtain ⟨rws, _, _, hd⟩ := read_table_ok h
  rw [hd]
  simp [coerceRows]

/-- C10: for a table whose body region contains no element rows,
`read_table` raises the `pd.concat`-of-an-empty-list `ValueError`
instead of returning an empty dataset with the extracted column labels. -/
theorem claim10_empty_body_concat_error (t : MarkupTable)
    (h : t.tbodyChildren.filter isElem = []) :
    read_table t = .error .valueErrorConcat := by
  have hgo : ∀ (ns : List Node) (i : Nat), ns.filter isElem = [] →
      buildRawRowsGo (headerLabels t).length i ns = .ok [] := by
    intro ns
    induction ns with
    | nil => intro i _; rfl
    | cons nd ns2 ih =>
      intro i hf
      rw [List.filter_cons] at hf
      by_cases he : isElem nd
      · rw [if_pos he] at hf
        exact absurd hf (by simp)
      · rw [if_neg he] at hf
        simp only [buildRawRowsGo, if_neg he]
        exact ih i hf
  unfold read_table rawRows
  rw [hgo t.tbodyChildren 0 h]

theorem claim10_witness : read_table exT10 = .error .valueErrorConcat :=
  claim10_empty_body_concat_error exT10 (by rfl)

/-- C8: `get_data` reads exactly the second table element of the fetched
page, and raises `IndexError` when the page holds fewer than two tables. -/
theorem claim8_second_table_selected (fetch : String → Html) (link : String) :
    ((fetch link).tables.length < 2 → get_data fetch link = .error .indexError) ∧
    (∀ t0 t1 rest, (fetch link).tables = t0 :: t1 :: rest →
      get_data fetch link = read_table t1) := by
  refine ⟨?_, ?_⟩
  · intro hlen
    unfold get_data
    cases hts : (fetch link).tables with
    | nil => rfl
    | cons t0 rest =>
      cases rest with
      | nil => rfl
      | cons t1 rest2 =>
        rw [hts] at hlen
        exact absurd hlen (by simp)
  · intro t0 t1 rest hts
    unfold get_data
    rw [hts]

theorem claim8_witness : get_data exFetch ("b") = read_table exT2 :=
  (claim8_second_table_selected exFetch ("b")).2 exT1 exT2 [] rfl

/-- C4: `get_all_links` drops every year option whose display text
contains `Mid-Year` and builds exactly one link `base?title=value` per
remaining option, in the order the options appear. -/
theorem claim4_year_links_drop_mid_year (link : String) (html : Html) (opts : List OptionTag)
    (h : html.changePageForm = some opts) :
    get_all_links link html =
      .ok ((opts.filter (fun o => ! containsSub ("Mid-Year") o.text)).map
        (fun o => link ++ ("?title=") ++ o.value)) := by
  unfold get_all_links
  rw [h]
  simp [List.map_map, Function.comp]

theorem claim4_witness : get_all_links ("b") ex4Html = .ok [("b?title=2019")] :=
  (claim4_year_links_drop_mid_year ("b") ex4Html _ rfl).trans (by decide)

/-- C1: each year iteration fetches and parses the base link itself —
the result is unchanged if the network's answers anywhere else (per-year
URLs included) change — and every successfully built per-year dataset is
`addYear` applied to the dataset `get_data` extracts from the base link,
so all years share identical page content before the year column. -/
theorem claim1_always_refetches_base_link (fetch1 fetch2 : String → Html) (link l : String)
    (h : fetch1 link = fetch2 link) :
    perYearDataset fetch1 link l = perYearDataset fetch2 link l ∧
    (∀ d, perYearDataset fetch1 link l = .ok d →
      ∃ raw y, get_data fetch1 link = .ok raw ∧ yearOf l = .ok y ∧ d = addYear raw y) := by
  constructor
  · unfold perYearDataset get_data
    rw [h]
  · intro d hd
    exact perYearDataset_ok hd

theorem claim1_witness :
    perYearDataset exFetch ("b") ("b?title=2019") = perYearDataset exFetchB ("b") ("b?title=2019") ∧
    (∀ d, perYearDataset exFetch ("b") ("b?title=2019") = .ok d →
      ∃ raw y, get_data exFetch ("b") = .ok raw ∧ yearOf ("b?title=2019") = .ok y ∧
        d = addYear raw y) :=
  claim1_always_refetches_base_link exFetch exFetchB ("b") ("b?title=2019") (by rfl)

/-- C5: a successful `read_table` yields exactly one value per header
element cell in every row, and its success forces every element body row
to carry exactly that many element cells — a row with a deviating cell
count can only end in an error, never a truncated or padded row. -/
theorem claim5_row_width_matches_header (t : MarkupTable) (d : Dataset)
    (h : read_table t = .ok d) :
    d.columns.length = headerCount t ∧
    (∀ r ∈ d.rows, r.length = headerCount t) ∧
    (∀ nd ∈ t.tbodyChildren.filter isElem,
      (nd.children.filter isElem).length = headerCount t) := by
  obtain ⟨rws, hraw, hne, hd⟩ := read_table_ok h
  have hH : (headerLabels t).length = headerCount t := by simp [headerLabels, headerCount]
  unfold rawRows at hraw
  obtain ⟨g1, g2, g3, g4⟩ := buildGo_ok t.tbodyChildren 0 rws hraw
  subst hd
  refine ⟨by simpa [headerLabels] using hH, ?_, ?_⟩
  · intro r hr
    simp only [coerceRows] at hr
    obtain ⟨r0, hr0, hrr⟩ := List.mem_map.mp hr
    rw [← hrr]
    rw [show (coerceRow rws r0).length = r0.length from coerceRowGo_length rws r0 0]
    rw [(g2 r0 hr0).1, hH]
  · intro nd hnd
    rw [← hH]
    exact g3 nd hnd

theorem claim5_witness :
    exD.columns.length = headerCount exT2 ∧
    (∀ r ∈ exD.rows, r.length = headerCount exT2) ∧
    (∀ nd ∈ exT2.tbodyChildren.filter isElem,
      (nd.children.filter isElem).length = headerCount exT2) :=
  claim5_row_width_matches_header exT2 exD (by decide)

/-- C2: in the dataset `read_table` returns, the value at index 0 of the
row in (0-based) position `i` is the number `i + 1` — the 1-based rank of
the row — whatever text the row's first cell originally held. -/
theorem claim2_rank_column_is_row_position (t : MarkupTable) (d : Dataset)
    (h : read_table t = .ok d) (i : Nat) (hi : i < d.rows.length) :
    (d.rows.getD i []).getD 0 (Value.str ("")) = Value.num (((i + 1 : Nat) : Rat)) := by
  obtain ⟨rws, hraw, hne, hd⟩ := read_table_ok h
  unfold rawRows at hraw
  obtain ⟨g1, g2, g3, g4⟩ := buildGo_ok t.tbodyChildren 0 rws hraw
  subst hd
  have hi2 : i < rws.length := by simpa [coerceRows] using hi
  obtain ⟨tl, htl⟩ := g4 i hi2
  rw [show 0 + i + 1 = i + 1 from by omega] at htl
  have hcn : colNumeric rws 0 = true := by
    unfold colNumeric
    rw [List.all_eq_true]
    intro r hr
    obtain ⟨-, m, tl2, hm⟩ := g2 r hr
    rw [hm]
    simp [parseNum_natRepr m]
  have hrow : (coerceRows rws).getD i [] = coerceRow rws (rws.getD i []) :=
    map_getD (coerceRow rws) [] [] rws i hi2
  show ((coerceRows rws).getD i []).getD 0 (Value.str ("")) = _
  rw [hrow, htl]
  show (coerceCell (colNumeric rws 0) (natRepr (i + 1)) :: coerceRowGo rws 1 tl).getD 0
      (Value.str ("")) = _
  rw [List.getD_cons_zero]
  simp [coerceCell, hcn, parseNum_natRepr (i + 1)]

theorem claim2_witness :
    1 < exD.rows.length ∧
    (exD.rows.getD 1 []).getD 0 (Value.str ("")) = Value.num (((1 + 1 : Nat) : Rat)) :=
  ⟨by decide, claim2_rank_column_is_row_position exT2 exD (by decide) 1 (by decide)⟩

/-- C3: the rows of a successful `read_table` are exactly the coercion of
the raw rows; a column converts (`colNumeric`) precisely when every one
of its values parses numerically, in which case every cell of the column
becomes its parsed number, and otherwise — one failing value suffices —
every cell of the column keeps its original text, with no error raised. -/
theorem claim3_numeric_coercion_all_or_nothing (t : MarkupTable) (d : Dataset)
    (rws : List (List String)) (hraw : rawRows t = .ok rws) (h : read_table t = .ok d)
    (j : Nat) :
    d.rows = coerceRows rws ∧
    (colNumeric rws j = true ↔ ∀ r ∈ rws, (parseNum (r.getD j (""))).isSome = true) ∧
    (colNumeric rws j = true → ∀ r ∈ rws, ∀ hj : j < r.length,
      ∃ q, parseNum (r.getD j ("")) = some q ∧
        (coerceRow rws r).getD j (Value.str ("")) = Value.num q) ∧
    (colNumeric rws j = false → ∀ r ∈ rws,
      (coerceRow rws r).getD j (Value.str ("")) = Value.str (r.getD j (""))) := by
  obtain ⟨rws2, hraw2, hne, hd⟩ := read_table_ok h
  rw [hraw] at hraw2
  injection hraw2 with he
  subst he
  refine ⟨by rw [hd], ?_, ?_, ?_⟩
  · unfold colNumeric
    exact List.all_eq_true
  · intro hcn r hr hj
    have hs : (parseNum (r.getD j (""))).isSome = true := by
      have hcn2 := hcn
      unfold colNumeric at hcn2
      exact (List.all_eq_true.mp hcn2) r hr
    obtain ⟨q, hq⟩ := Option.isSome_iff_exists.mp hs
    refine ⟨q, hq, ?_⟩
    have hgo := coerceRowGo_getD rws r 0 j hj
    rw [Nat.zero_add] at hgo
    unfold coerceRow
    rw [hgo, hcn]
    unfold coerceCell
    rw [if_pos rfl, hq]
  · intro hcn r hr
    by_cases hj : j < r.length
    · have hgo := coerceRowGo_getD rws r 0 j hj
      rw [Nat.zero_add] at hgo
      unfold coerceRow
      rw [hgo]
      simp [coerceCell, hcn]
    · have hlen := coerceRowGo_length rws r 0
      unfold coerceRow
      rw [List.getD_eq_default, List.getD_eq_default]
      · omega
      · rw [hlen]; omega

theorem claim3_witness :
    exD.rows = coerceRows exRaw ∧
    (colNumeric exRaw 1 = true ↔ ∀ r ∈ exRaw, (parseNum (r.getD 1 (""))).isSome = true) ∧
    (colNumeric exRaw 1 = true → ∀ r ∈ exRaw, ∀ hj : 1 < r.length,
      ∃ q, parseNum (r.getD 1 ("")) = some q ∧
        (coerceRow exRaw r).getD 1 (Value.str ("")) = Value.num q) ∧
    (colNumeric exRaw 1 = false → ∀ r ∈ exRaw,
      (coerceRow exRaw r).getD 1 (Value.str ("")) = Value.str (r.getD 1 (""))) :=
  claim3_numeric_coercion_all_or_nothing exT2 exD exRaw (by decide) (by decide) 1

/-- C6 counterexample: on a concrete two-year site the combined dataset's
index is `[0, 1, 0, 1]` — the per-year indexes kept as-is — and not the
fresh positional index `0..3` the claim asserts. -/
theorem claim6_counterexample :
    numbeoWhole exFetch ("b") = .ok exWhole ∧
    exWhole.index ≠ List.range exWhole.rows.length := by
  refine ⟨by decide, by decide⟩

/-- C6 (amended): the combined dataset's index is the concatenation of
the per-year datasets' own index values — each per-year dataset carrying
the 0-based positional index `read_table` gave it — and is not renumbered
by the merge. -/
theorem claim6_concat_keeps_per_year_index (fetch : String → Html) (link : String)
    (ds : List Dataset) (h : numbeoDatasets fetch link = .ok ds) (hne : ds ≠ []) :
    ∃ d, numbeoWhole fetch link = .ok d ∧
      d.index = (ds.map Dataset.index).flatten ∧
      ∀ dy ∈ ds, dy.index = List.range dy.rows.length := by
  have horigin : ∀ dy ∈ ds, dy.index = List.range dy.rows.length := by
    intro dy hdy
    unfold numbeoDatasets at h
    cases hga : get_all_links link (fetch link) with
    | error e => rw [hga] at h; exact absurd h (by simp)
    | ok yls =>
      rw [hga] at h
      obtain ⟨l0, hl0, hper⟩ := mapExcept_ok_mem _ yls ds h dy hdy
      obtain ⟨raw, y, hgd, hy, hdy2⟩ := perYearDataset_ok hper
      obtain ⟨t1, hrt⟩ := get_data_ok hgd
      rw [hdy2, addYear_index, addYear_rowsLength]
      exact read_table_index hrt
  cases ds with
  | nil => exact absurd rfl hne
  | cons d0 ds2 =>
    refine ⟨⟨d0.columns, ((d0 :: ds2).map Dataset.rows).flatten,
      ((d0 :: ds2).map Dataset.index).flatten⟩, ?_, rfl, horigin⟩
    unfold numbeoWhole
    rw [h]
    rfl

/-- C6 witness at the concrete two-year site. -/
theorem claim6_witness :
    ∃ d, numbeoWhole exFetch ("b") = .ok d ∧
      d.index = (exDs.map Dataset.index).flatten ∧
      ∀ dy ∈ exDs, dy.index = List.range dy.rows.length :=
  claim6_concat_keeps_per_year_index exFetch ("b") exDs (by decide) (by decide)

/-- C7: the combined dataset's rows are exactly the per-year datasets'
rows laid end to end in year-enumeration order — none dropped, duplicated
or reordered — so its row count is the sum of the per-year row counts,
and there is one per-year dataset per discovered year link. -/
theorem claim7_concat_preserves_rows (fetch : String → Html) (link : String)
    (ds : List Dataset) (h : numbeoDatasets fetch link = .ok ds) (hne : ds ≠ []) :
    ∃ d, numbeoWhole fetch link = .ok d ∧
      d.rows = (ds.map Dataset.rows).flatten ∧
      d.rows.length = (ds.map (fun x => x.rows.length)).sum ∧
      (∀ yls, get_all_links link (fetch link) = .ok yls → ds.length = yls.length) := by
  have hyls : ∀ yls, get_all_links link (fetch link) = .ok yls → ds.length = yls.length := by
    intro yls hga
    unfold numbeoDatasets at h
    rw [hga] at h
    exact mapExcept_ok_length _ yls ds h
  cases ds with
  | nil => exact absurd rfl hne
  | cons d0 ds2 =>
    refine ⟨⟨d0.columns, ((d0 :: ds2).map Dataset.rows).flatten,
      ((d0 :: ds2).map Dataset.index).flatten⟩, ?_, rfl, ?_, hyls⟩
    · unfold numbeoWhole
      rw [h]
      rfl
    · show (((d0 :: ds2).map Dataset.rows).flatten).length = _
      rw [List.length_flatten, List.map_map]
      rfl

/-- C7 witness at the concrete two-year site. -/
theorem claim7_witness :
    ∃ d, numbeoWhole exFetch ("b") = .ok d ∧
      d.rows = (exDs.map Dataset.rows).flatten ∧
      d.rows.length = (exDs.map (fun x => x.rows.length)).sum ∧
      (∀ yls, get_all_links ("b") (exFetch ("b")) = .ok yls → exDs.length = yls.length) :=
  claim7_concat_preserves_rows exFetch ("b") exDs (by decide) (by decide)

/-- C9: the year attached to a per-year dataset is the integer parsed
from the constructed link's trailing segment after the last `=`, with any
suffix after `-` stripped; when no `Year` column pre-exists it is stored
as a new last column holding that same value in every row. -/
theorem claim9_year_column_from_link (fetch : String → Html) (link l : String) (d : Dataset)
    (h : perYearDataset fetch link l = .ok d) :
    ∃ raw y, get_data fetch link = .ok raw ∧
      pyInt (String.mk (((splitCh ('-') ((splitCh ('=') l.data).getLastD [])).headD []))) =
        .ok y ∧
      d = addYear raw y ∧
      (("Year") ∉ raw.columns →
        d.columns = raw.columns ++ [("Year")] ∧
        ∀ r ∈ d.rows, r.getLast? = some (Value.num ((y : Rat)))) := by
  obtain ⟨raw, y, hgd, hy, hd⟩ := perYearDataset_ok h
  refine ⟨raw, y, hgd, hy, hd, ?_⟩
  intro hnY
  subst hd
  unfold addYear
  rw [if_neg hnY]
  refine ⟨rfl, ?_⟩
  intro r hr
  obtain ⟨r0, hr0, hrr⟩ := List.mem_map.mp hr
  rw [← hrr]
  exact List.getLast?_concat r0

/-- C9 witness: a link carrying a half-year suffix parses to the bare
year, and every row of the resulting dataset ends with it. -/
theorem claim9_witness :
    ∃ raw y, get_data exFetch ("b") = .ok raw ∧
      pyInt (String.mk (((splitCh ('-')
        ((splitCh ('=') ("b?title=2019-mid").data).getLastD [])).headD []))) = .ok y ∧
      exD2019 = addYear raw y ∧
      (("Year") ∉ raw.columns →
        exD2019.columns = raw.columns ++ [("Year")] ∧
        ∀ r ∈ exD2019.rows, r.getLast? = some (Value.num ((y : Rat)))) :=
  claim9_year_column_from_link exFetch ("b") ("b?title=2019-mid") exD2019 (by decide)
